import Mathlib

/-!
# Verification of the change-set translation engine (ghommit)

A shallow embedding of the Rust sources in `src/`, together with theorems
settling the specification claims about them.

Modelling conventions:
- `Result<T, String>` is embedded as `Except String T`.
- Rust `HashSet<GitCommitAction>` values built from fixed literals are
  embedded as `List GitCommitAction` in construction order (the source only
  ever iterates them and tests membership/size).
- Object ids (`git2::Oid`) are embedded as `String` (their hex rendering).
- Byte sequences (`&[u8]`) are embedded as `List Nat`, each element < 256.
- A Rust `String` originating from raw file bytes is kept as its UTF-8 byte
  sequence (`List Nat`); `std::str::from_utf8` views the same bytes, so the
  `Text` payload is the byte sequence itself.
- OS path strings are embedded as `Option String` for presence; the lossless
  `to_str` conversion of a present path is the identity (Lean strings are
  always valid unicode).
- External collaborators (the libgit2 object store and index, the HTTP
  client, the clock) are passed in as explicit function/value parameters,
  matching the spec's §6 interface boundary.
- Error message strings keep the source's literal text; `format!`
  interpolations of debug-printed values are, where kept, the plain value.
-/

/-- `git2::Delta`: the eleven change kinds reported by a libgit2 diff. -/
inductive Delta
  | Unmodified
  | Added
  | Deleted
  | Modified
  | Renamed
  | Copied
  | Ignored
  | Untracked
  | Typechange
  | Unreadable
  | Conflicted
deriving DecidableEq

/-- `git2::FileMode` (the variants the source can observe). -/
inductive GitFileMode
  | Unreadable
  | Tree
  | Blob
  | BlobGroupWritable
  | BlobExecutable
  | Link
  | Commit
deriving DecidableEq

/-- `git2::ObjectType`. -/
inductive GitObjectType
  | Any
  | Commit
  | Tree
  | Blob
  | Tag
deriving DecidableEq

/-- `GitCommitAction` — identical enums appear in `main.rs` and in
`create_a_tree_prep.rs`. -/
inductive GitCommitAction
  | AddPath
  | DeleteOriginalPath
  | DeletePath
  | Nop
  | Unsupported
deriving DecidableEq

/-- `git_status::PathStatus` — one entry per changed path. -/
structure PathStatus where
  delta : Delta
  file_mode : GitFileMode
  object_id : String
  object_type : Option GitObjectType
  original_path : Option String
  path : String
deriving DecidableEq

/-- A git object as exposed by `repo.find_object`: its kind and (for blobs)
its raw content bytes. -/
structure GitObject where
  kind : Option GitObjectType
  content : List Nat
deriving DecidableEq

/-- The libgit2 object store, `repo.find_object` keyed by object id. A real
repository never stores an object under the all-zero id (it is the reserved
"absent" id; the repository's own `deleted_file` test records deleted paths
with object id `0000…0`). -/
def Repo := String → Option GitObject

/-! ## Base64 (standard alphabet, no wrapping) and UTF-8 validity

`main.rs::read_as_base64` and `create_a_tree_prep.rs::read_file` use the
`base64` crate's `STANDARD` engine (RFC 4648 alphabet, `=` padding, no line
wrapping) through an `EncoderStringWriter`, and `std::str::from_utf8` for
UTF-8 validation. Both are external library routines; they are embedded here
by their documented definitions. -/

/-- The RFC 4648 standard base64 alphabet. -/
def b64Alphabet : List Char :=
  "ABCDEFGHIJKLMNOPQRSTUVWXYZabcdefghijklmnopqrstuvwxyz0123456789+/".toList

/-- The alphabet character for a 6-bit group. -/
def b64Char (n : Nat) : Char := b64Alphabet.getD n '='

/-- The 6-bit value of an alphabet character, if any. -/
def b64Val (c : Char) : Option Nat := b64Alphabet.findIdx? (fun x => x = c)

/-- Standard base64 encoding of a byte sequence, processed in 3-byte groups,
with `=` padding on the final partial group (RFC 4648 §4). -/
def base64EncodeChars : List Nat → List Char
  | [] => []
  | [a] => [b64Char (a / 4), b64Char (a % 4 * 16), '=', '=']
  | [a, b] => [b64Char (a / 4), b64Char (a % 4 * 16 + b / 16), b64Char (b % 16 * 4), '=']
  | a :: b :: c :: rest =>
      b64Char (a / 4) :: b64Char (a % 4 * 16 + b / 16) ::
        b64Char (b % 16 * 4 + c / 64) :: b64Char (c % 64) :: base64EncodeChars rest

/-- Standard base64 decoding: 4-character groups, with `=` padding allowed
only in the final group. -/
def base64DecodeChars : List Char → Option (List Nat)
  | [] => some []
  | c0 :: c1 :: c2 :: c3 :: rest =>
      match b64Val c0, b64Val c1 with
      | some v0, some v1 =>
        if c2 = '=' then
          if c3 = '=' ∧ rest = [] then some [v0 * 4 + v1 / 16] else none
        else
          match b64Val c2 with
          | some v2 =>
            if c3 = '=' then
              if rest = [] then some [v0 * 4 + v1 / 16, v1 % 16 * 16 + v2 / 4] else none
            else
              match b64Val c3, base64DecodeChars rest with
              | some v3, some tail =>
                  some ((v0 * 4 + v1 / 16) :: (v1 % 16 * 16 + v2 / 4) ::
                    (v2 % 4 * 64 + v3) :: tail)
              | _, _ => none
          | none => none
      | _, _ => none
  | _ => none

/-- What `EncoderStringWriter::new(&STANDARD)` produces after `write_all`. -/
def base64Encode (bs : List Nat) : String := String.mk (base64EncodeChars bs)

/-- Standard base64 decoding of a string. -/
def base64Decode (s : String) : Option (List Nat) := base64DecodeChars s.data

/-- Whether a byte is a UTF-8 continuation byte (`0x80`–`0xBF`). -/
def isCont (b : Nat) : Bool := 0x80 ≤ b && b ≤ 0xBF

/-- UTF-8 validity of a byte sequence, as checked by `std::str::from_utf8`
(RFC 3629 table: no overlong forms, no surrogates, max `U+10FFFF`). -/
def isValidUtf8 : List Nat → Bool
  | [] => true
  | b0 :: rest =>
    if b0 ≤ 0x7F then isValidUtf8 rest
    else match rest with
      | b1 :: rest1 =>
        if 0xC2 ≤ b0 && b0 ≤ 0xDF then isCont b1 && isValidUtf8 rest1
        else match rest1 with
          | b2 :: rest2 =>
            if b0 = 0xE0 then (0xA0 ≤ b1 && b1 ≤ 0xBF) && isCont b2 && isValidUtf8 rest2
            else if (0xE1 ≤ b0 && b0 ≤ 0xEC) || b0 = 0xEE || b0 = 0xEF then
              isCont b1 && isCont b2 && isValidUtf8 rest2
            else if b0 = 0xED then (0x80 ≤ b1 && b1 ≤ 0x9F) && isCont b2 && isValidUtf8 rest2
            else match rest2 with
              | b3 :: rest3 =>
                if b0 = 0xF0 then
                  (0x90 ≤ b1 && b1 ≤ 0xBF) && isCont b2 && isCont b3 && isValidUtf8 rest3
                else if 0xF1 ≤ b0 && b0 ≤ 0xF3 then
                  isCont b1 && isCont b2 && isCont b3 && isValidUtf8 rest3
                else if b0 = 0xF4 then
                  (0x80 ≤ b1 && b1 ≤ 0x8F) && isCont b2 && isCont b3 && isValidUtf8 rest3
                else false
              | [] => false
          | [] => false
      | [] => false

namespace MainRs

/-- `main.rs::delta_to_actions` — the Strategy B (GraphQL) copy of the
change-kind-to-action table. -/
def delta_to_actions (git2_delta : Delta) : List GitCommitAction :=
  match git2_delta with
  | .Modified => [.AddPath]
  | .Added => [.AddPath]
  | .Copied => [.AddPath]
  | .Typechange => [.AddPath]
  | .Renamed => [.AddPath, .DeleteOriginalPath]
  | .Deleted => [.DeletePath]
  | .Unmodified => [.Nop]
  | .Ignored => [.Nop]
  | .Untracked => [.Nop]
  | .Unreadable => [.Unsupported]
  | .Conflicted => [.Unsupported]

/-- `github::request::FileAddition` (GraphQL). -/
structure FileAddition where
  contents : String
  path : String
deriving DecidableEq

/-- `github::request::FileDeletion` (GraphQL). -/
structure FileDeletion where
  path : String
deriving DecidableEq

/-- `github::request::FileChanges` (GraphQL). -/
structure FileChanges where
  additions : List FileAddition
  deletions : List FileDeletion
deriving DecidableEq

/-- `main.rs::read_as_base64`: find the object by its id and base64-encode a
blob's bytes (a string writer's `write_all` cannot fail). -/
def read_as_base64 (repo : Repo) (object_id : String) : Except String String :=
  match repo object_id with
  | none => .error ("Unable to find object " ++ object_id ++ " in repo")
  | some object =>
      if object.kind = some .Blob then
        .ok (base64Encode object.content)
      else
        .error ("Expected object " ++ object_id ++ " in repo to be a blob")

/-- The inner `checks` function of `main.rs::path_statuses_to_file_changes`.
The `HashSet` collected from each list is embedded as `List.dedup` (same
cardinality, same membership). -/
def checks (additions : List FileAddition) (deletions : List FileDeletion) :
    Except String Unit :=
  if additions.isEmpty && deletions.isEmpty then
    .error "No changes to commit"
  else
    let additions_set := (additions.map FileAddition.path).dedup
    let deletions_set := (deletions.map FileDeletion.path).dedup
    if additions_set.length ≠ additions.length then
      .error "Files were added more than once"
    else if deletions_set.length ≠ deletions.length then
      .error "Files were deleted more than once"
    else
      let intersection := additions_set.filter (fun p => decide (p ∈ deletions_set))
      if ¬intersection.isEmpty then
        .error "Some files were added and deleted"
      else
        .ok ()

/-- The body of the inner `for action in actions` loop of
`main.rs::path_statuses_to_file_changes`, accumulating the additions and
deletions vectors. -/
def process_action (repo : Repo) (path_status : PathStatus)
    (acc : List FileAddition × List FileDeletion) (action : GitCommitAction) :
    Except String (List FileAddition × List FileDeletion) :=
  match action with
  | .AddPath => do
      let contents ← read_as_base64 repo path_status.object_id
      .ok (acc.1 ++ [⟨contents, path_status.path⟩], acc.2)
  | .DeleteOriginalPath =>
      match path_status.original_path with
      | some p => .ok (acc.1, acc.2 ++ [⟨p⟩])
      | none =>
          .error ("Expected an original path, but none was found for " ++ path_status.path)
  | .DeletePath => .ok (acc.1, acc.2 ++ [⟨path_status.path⟩])
  | .Nop => .ok acc
  | .Unsupported =>
      .error ("Unsupported delta for path status " ++ path_status.path)

/-- One iteration of the outer `for path_status in status` loop. -/
def process_path_status (repo : Repo) (path_status : PathStatus)
    (acc : List FileAddition × List FileDeletion) :
    Except String (List FileAddition × List FileDeletion) :=
  (delta_to_actions path_status.delta).foldlM (process_action repo path_status) acc

/-- `main.rs::path_statuses_to_file_changes`. -/
def path_statuses_to_file_changes (repo : Repo) (status : List PathStatus) :
    Except String FileChanges := do
  let acc ← status.foldlM (fun acc path_status => process_path_status repo path_status acc)
    ([], [])
  match checks acc.1 acc.2 with
  | .error e => .error e
  | .ok _ => .ok ⟨acc.1, acc.2⟩

end MainRs

namespace TreePrep

/-- `create_a_tree_prep.rs::delta_to_actions` — the Strategy A (REST) copy of
the change-kind-to-action table. -/
def delta_to_actions (git2_delta : Delta) : List GitCommitAction :=
  match git2_delta with
  | .Modified => [.AddPath]
  | .Added => [.AddPath]
  | .Copied => [.AddPath]
  | .Typechange => [.AddPath]
  | .Renamed => [.AddPath, .DeleteOriginalPath]
  | .Deleted => [.DeletePath]
  | .Unmodified => [.Nop]
  | .Ignored => [.Nop]
  | .Untracked => [.Nop]
  | .Unreadable => [.Unsupported]
  | .Conflicted => [.Unsupported]

/-- `create_a_tree_prep.rs::ObjectContents`. `Text` keeps the UTF-8 bytes
that the Rust `String` holds. -/
inductive ObjectContents
  | Text (bytes : List Nat)
  | Base64 (s : String)
deriving DecidableEq

/-- `create_a_tree_prep.rs::read_file`: classify a blob's bytes as text
(valid UTF-8) or base64-encoded binary. -/
def read_file (path_status : PathStatus) (git_object : GitObject) :
    Except String ObjectContents :=
  if git_object.kind = some .Blob then
    let bytes := git_object.content
    if isValidUtf8 bytes then
      .ok (.Text bytes)
    else
      .ok (.Base64 (base64Encode bytes))
  else
    .error ("Path " ++ path_status.path ++ " was expected to be a blob")

end TreePrep

namespace GitStatusRs

/-- An entry of the libgit2 index (only its object id is consumed). -/
structure IndexEntry where
  id : String
deriving DecidableEq

/-- The libgit2 index as consumed by `git_status.rs`: the conflict flag and
`index.get_path(path, stage)`. -/
structure Index where
  has_conflicts : Bool
  get_path : String → Int → Option IndexEntry

/-- One side of a `git2::DiffDelta`. -/
structure DiffFile where
  mode : GitFileMode
  id : String
  path : Option String

/-- A `git2::DiffDelta` produced by `diff_tree_to_index`. -/
structure DiffDelta where
  status : Delta
  new_file : DiffFile
  old_file : DiffFile

/-- `git_status.rs::stage_number`. -/
def stage_number (index : Index) : Except String Int :=
  if index.has_conflicts then
    .error "Handling conflicts is not supported, and conflicts were detected"
  else
    .ok 0

/-- The body of the `for diff_delta in diff.deltas()` loop of
`git_status.rs::git_status`, building one `PathStatus`. -/
def build_path_status (index : Index) (repo : Repo) (stage : Int)
    (diff_delta : DiffDelta) : Except String PathStatus :=
  let new_file := diff_delta.new_file
  match new_file.path with
  | none => .error "Delta is missing path"
  | some path_string =>
      match
        (match index.get_path path_string stage with
         | some index_entry =>
             match repo index_entry.id with
             | some object => Except.ok object.kind
             | none =>
                 Except.error ("Unable to find object with ID " ++ index_entry.id)
         | none => Except.ok none) with
      | .error e => .error e
      | .ok object_type =>
          .ok ⟨diff_delta.status, new_file.mode, new_file.id, object_type,
            diff_delta.old_file.path, path_string⟩

/-- `git_status.rs::git_status`, with the repository index, the object store
and the computed head-tree-to-index diff supplied at the §6 interface
boundary. -/
def git_status (index : Index) (repo : Repo) (deltas : List DiffDelta) :
    Except String (List PathStatus) := do
  let stage ← stage_number index
  deltas.mapM (build_path_status index repo stage)

end GitStatusRs

namespace CreateATree

/-- `github::rest_api::create_a_tree::FileMode`. -/
inductive FileMode
  | Blob
  | BlobExecutable
  | Commit
  | Link
  | Tree
deriving DecidableEq

/-- `github::rest_api::create_a_tree::NodeType`. -/
inductive NodeType
  | Blob
  | Commit
  | Tree
deriving DecidableEq

/-- `github::rest_api::create_a_tree::ShaOrContent`. `Content` keeps the
UTF-8 bytes of the Rust `String` it holds. -/
inductive ShaOrContent
  | Content (bytes : List Nat)
  | Sha (sha : Option String)
deriving DecidableEq

/-- `github::rest_api::create_a_tree::TreeNode`. -/
structure TreeNode where
  path : String
  file_mode : FileMode
  node_type : NodeType
  sha_or_content : ShaOrContent
deriving DecidableEq

/-- `github::rest_api::create_a_tree::RequestBody`. -/
structure RequestBody where
  base_tree : String
  tree : List TreeNode
deriving DecidableEq

/-- A serialized JSON scalar as emitted for a tree node field; `text` is the
serialization of a content string (kept as its UTF-8 bytes). -/
inductive JsonValue
  | null
  | str (s : String)
  | text (bytes : List Nat)
deriving DecidableEq

/-- serde serialization of `FileMode` (the `serde(rename)` attributes). -/
def fileModeJson : FileMode → JsonValue
  | .Blob => .str "100644"
  | .BlobExecutable => .str "100755"
  | .Commit => .str "160000"
  | .Link => .str "120000"
  | .Tree => .str "040000"

/-- serde serialization of `NodeType` (`rename_all` lowercase). -/
def nodeTypeJson : NodeType → JsonValue
  | .Blob => .str "blob"
  | .Commit => .str "commit"
  | .Tree => .str "tree"

/-- The manual `impl Serialize for TreeNode`: the fields `path`, `mode` and
`type`, then exactly one field picked by the active `ShaOrContent` variant —
`sha` (its `Option` serialized as the value or null) or `content`. -/
def serializeTreeNode (n : TreeNode) : List (String × JsonValue) :=
  [("path", .str n.path), ("mode", fileModeJson n.file_mode),
    ("type", nodeTypeJson n.node_type)] ++
    match n.sha_or_content with
    | .Sha (some s) => [("sha", .str s)]
    | .Sha none => [("sha", .null)]
    | .Content content => [("content", .text content)]

end CreateATree

/-- `config::Config` — the fields consumed by the payload assemblers. The
application credentials and the repository handle are opaque to the
translation engine and are held by the external collaborators. -/
structure Config where
  commit_message : String
  git_branch_name : String
  git_head_object_id : String
  git_should_force_push : Bool
deriving DecidableEq

namespace TreePrep

/-- `create_a_tree_prep.rs::DELETED_FILE_MODE` — the placeholder mode sent
for a deletion (an arbitrary accepted value; documented API quirk). -/
def DELETED_FILE_MODE : CreateATree.FileMode := .Blob

/-- `create_a_tree_prep.rs::DELETED_NODE_TYPE` — the benign node type sent
for a deletion. -/
def DELETED_NODE_TYPE : CreateATree.NodeType := .Blob

/-- `create_a_tree_prep.rs::git2_mode_to_github_mode`. The catch-all arm
covers `BlobGroupWritable` and `Unreadable`, which GitHub does not
support. -/
def git2_mode_to_github_mode (path_status : PathStatus) :
    Except String CreateATree.FileMode :=
  match path_status.file_mode with
  | .Blob => .ok .Blob
  | .BlobExecutable => .ok .BlobExecutable
  | .Commit => .ok .Commit
  | .Link => .ok .Link
  | .Tree => .ok .Tree
  | _ =>
      .error ("Path " ++ path_status.path ++
        " has a file mode which is not supported by GitHub")

/-- `create_a_tree_prep.rs::git2_node_type_to_github_node_type`. The
catch-all arm covers `Any` and `Tag`. -/
def git2_node_type_to_github_node_type (path_status : PathStatus)
    (git_object : GitObject) : Except String CreateATree.NodeType :=
  match git_object.kind with
  | some object_type =>
      match object_type with
      | .Blob => .ok .Blob
      | .Commit => .ok .Commit
      | .Tree => .ok .Tree
      | _ =>
          .error ("Path " ++ path_status.path ++
            " has an object type which is not supported by the GitHub API")
  | none =>
      .error ("Unknown object type on object with path " ++ path_status.path)

/-- The body of the `for action in actions` loop of
`create_a_tree_prep.rs::generate_request_body`. Note that the node type is
resolved from the looked-up object before the action is inspected, for
every action. `create_a_blob` is the network call of the `GitHubClient`
(base64 content in, blob sha out), supplied at the interface boundary. -/
def process_action (create_a_blob : String → Except String String)
    (path_status : PathStatus) (git_object : GitObject)
    (tree : List CreateATree.TreeNode) (action : GitCommitAction) :
    Except String (List CreateATree.TreeNode) := do
  let path := path_status.path
  let node_type ← git2_node_type_to_github_node_type path_status git_object
  match action with
  | .AddPath => do
      let file_mode ← git2_mode_to_github_mode path_status
      let object_contents ← read_file path_status git_object
      let sha_or_content ← match object_contents with
        | .Text text => Except.ok (CreateATree.ShaOrContent.Content text)
        | .Base64 base64_string => do
            let sha ← create_a_blob base64_string
            Except.ok (CreateATree.ShaOrContent.Sha (some sha))
      .ok (tree ++ [⟨path, file_mode, node_type, sha_or_content⟩])
  | .DeletePath =>
      .ok (tree ++ [⟨path, DELETED_FILE_MODE, DELETED_NODE_TYPE, .Sha none⟩])
  | .DeleteOriginalPath =>
      match path_status.original_path with
      | some p =>
          .ok (tree ++ [⟨p, DELETED_FILE_MODE, DELETED_NODE_TYPE, .Sha none⟩])
      | none =>
          .error ("Expected an original path, but none was found for " ++
            path_status.path)
  | .Nop => .ok tree
  | .Unsupported =>
      .error ("Unsupported delta for path status " ++ path_status.path)

/-- The `for path_status in git_status` loop of
`create_a_tree_prep.rs::generate_request_body`: look up each changed object
(before the actions are inspected) and fold its actions into tree nodes. -/
def build_tree (repo : Repo) (create_a_blob : String → Except String String)
    (git_status : List PathStatus) : Except String (List CreateATree.TreeNode) :=
  git_status.foldlM
    (fun tree path_status =>
      match repo path_status.object_id with
      | none => .error ("Unable to find object " ++ path_status.object_id ++ " in repo")
      | some git_object =>
          (delta_to_actions path_status.delta).foldlM
            (process_action create_a_blob path_status git_object) tree)
    []

/-- `create_a_tree_prep.rs::generate_request_body`: build the tree nodes and
assemble the request body with `base_tree` set to
`config.git_head_object_id`. -/
def generate_request_body (config : Config) (repo : Repo)
    (git_status : List PathStatus) (create_a_blob : String → Except String String) :
    Except String CreateATree.RequestBody := do
  let tree ← build_tree repo create_a_blob git_status
  .ok ⟨config.git_head_object_id, tree⟩

end TreePrep

namespace GitConfigRs

/-- A git commit object at the interface boundary: its own id and the id of
the tree it names (every commit object names exactly one tree). -/
structure GitCommit where
  id : String
  tree_id : String
deriving DecidableEq

/-- The repository HEAD as consumed by `GitConfig::gather`: the branch
shorthand and the result of `peel_to_commit()`. -/
structure Head where
  shorthand : Option String
  commit : Option GitCommit

/-- `config.rs::GitConfig::gather`, the branch-name and head-object-id part:
`git_head_object_id` is the id of the commit HEAD peels to. (The remote-URL
parsing that yields the repository owner and name is not referenced by any
claim and is omitted.) -/
def gather_branch_and_head (head : Head) : Except String (String × String) :=
  match head.shorthand with
  | none => .error "Git repository HEAD branch name does not exist or is invalid"
  | some branch_name =>
      match head.commit with
      | none => .error ("Could not resolve commit for branch " ++ branch_name)
      | some commit => .ok (branch_name, commit.id)

end GitConfigRs

namespace CreateACommit

/-- `github::rest_api::create_a_commit::RequestBody`. -/
structure RequestBody where
  message : String
  parents : List String
  tree : String
deriving DecidableEq

end CreateACommit

/-- Modelled from the spec: the Strategy A orchestrator is not among the
sources under `src/` (only its request/response declarations and the
`GitHubClient` call wrappers are). Per §4.4 it assembles, after the
tree-creation call returns the new tree id, "one commit-creation request
referencing the new tree and the prior commit as sole parent". -/
def strategy_a_commit_request (config : Config) (new_tree_sha : String) :
    CreateACommit.RequestBody :=
  ⟨config.commit_message, [config.git_head_object_id], new_tree_sha⟩

namespace GitHubRs

/-- `github.rs::AccessToken` (the `Arc<String>` payload is its string
value). Time is embedded as integer seconds since the epoch. -/
structure AccessToken where
  token : String
  expires_at : Int
deriving DecidableEq

/-- `AccessToken::expires_soon`: the token expires before the fixed
two-minute safety margin from now (`Utc::now() + Duration::minutes(2)`). -/
def expires_soon (t : AccessToken) (now : Int) : Bool :=
  decide (t.expires_at < now + 120)

/-- The response of `create_an_installation_access_token` — an external
network call, supplied at the interface boundary. -/
structure RenewedToken where
  token : String
  expires_at : Int
deriving DecidableEq

/-- `GitHubClient::get_access_token`. The mutex-guarded cell
`github_access_token` is passed as the explicit `cached` argument and the
replaced cell contents are returned alongside the token; the source body
runs under the lock, so the check-and-possibly-renew step is atomic. -/
def get_access_token (cached : Option AccessToken) (now : Int)
    (force_token_renewal : Bool) (renew : Except String RenewedToken) :
    Except String (String × Option AccessToken) :=
  let should_update := force_token_renewal ||
    (match cached with
     | some token => expires_soon token now
     | none => true)
  if should_update then
    match renew with
    | .error e => .error e
    | .ok raw_access_token =>
        let access_token : AccessToken :=
          ⟨raw_access_token.token, raw_access_token.expires_at⟩
        .ok (access_token.token, some access_token)
  else
    match cached with
    | some access_token => .ok (access_token.token, some access_token)
    | none => .error "Unexpected state: Access token is None"

end GitHubRs

/-! ## Theorems -/

theorem b64Val_b64Char : ∀ n < 64, b64Val (b64Char n) = some n := by decide

theorem b64Char_ne_pad : ∀ n < 64, b64Char n ≠ '=' := by decide

theorem base64_chars_round_trip (bs : List Nat) (h : ∀ b ∈ bs, b < 256) :
    base64DecodeChars (base64EncodeChars bs) = some bs := by
  induction bs using base64EncodeChars.induct with
  | case1 =>
      simp [base64EncodeChars, base64DecodeChars]
  | case2 a =>
      have ha : a < 256 := h a (by simp)
      have h0 : a / 4 < 64 := by omega
      have h1 : a % 4 * 16 < 64 := by omega
      simp [base64EncodeChars, base64DecodeChars,
        b64Val_b64Char _ h0, b64Val_b64Char _ h1]
      omega
  | case3 a b =>
      have ha : a < 256 := h a (by simp)
      have hb : b < 256 := h b (by simp)
      have h0 : a / 4 < 64 := by omega
      have h1 : a % 4 * 16 + b / 16 < 64 := by omega
      have h2 : b % 16 * 4 < 64 := by omega
      simp [base64EncodeChars, base64DecodeChars, b64Val_b64Char _ h0,
        b64Val_b64Char _ h1, b64Val_b64Char _ h2, b64Char_ne_pad _ h2]
      omega
  | case4 a b c rest ih =>
      have ha : a < 256 := h a (by simp)
      have hb : b < 256 := h b (by simp)
      have hc : c < 256 := h c (by simp)
      have hrest : ∀ x ∈ rest, x < 256 := fun x hx => h x (by simp [hx])
      have h0 : a / 4 < 64 := by omega
      have h1 : a % 4 * 16 + b / 16 < 64 := by omega
      have h2 : b % 16 * 4 + c / 64 < 64 := by omega
      have h3 : c % 64 < 64 := by omega
      simp [base64EncodeChars, base64DecodeChars, b64Val_b64Char _ h0,
        b64Val_b64Char _ h1, b64Val_b64Char _ h2, b64Val_b64Char _ h3,
        b64Char_ne_pad _ h2, b64Char_ne_pad _ h3, ih hrest]
      omega

theorem base64_string_round_trip (bs : List Nat) (h : ∀ b ∈ bs, b < 256) :
    base64Decode (base64Encode bs) = some bs :=
  base64_chars_round_trip bs h

/-- C1: the change-kind-to-action mapping is a total pure function over all
eleven change kinds and matches the §4.2 table exactly: modified, added,
copied and type-changed map to the singleton AddPath; renamed maps to
AddPath together with DeleteOriginalPath; deleted maps to DeletePath;
unmodified, ignored and untracked map to Nop; and Unsupported is produced
only for unreadable and conflicted. (Totality is inherent: `delta_to_actions`
is a total Lean function on the eleven-constructor `Delta` type.) -/
theorem c1_delta_to_actions_matches_table :
    MainRs.delta_to_actions .Modified = [.AddPath] ∧
    MainRs.delta_to_actions .Added = [.AddPath] ∧
    MainRs.delta_to_actions .Copied = [.AddPath] ∧
    MainRs.delta_to_actions .Typechange = [.AddPath] ∧
    MainRs.delta_to_actions .Renamed = [.AddPath, .DeleteOriginalPath] ∧
    MainRs.delta_to_actions .Deleted = [.DeletePath] ∧
    MainRs.delta_to_actions .Unmodified = [.Nop] ∧
    MainRs.delta_to_actions .Ignored = [.Nop] ∧
    MainRs.delta_to_actions .Untracked = [.Nop] ∧
    MainRs.delta_to_actions .Unreadable = [.Unsupported] ∧
    MainRs.delta_to_actions .Conflicted = [.Unsupported] ∧
    (∀ d : Delta, GitCommitAction.Unsupported ∈ MainRs.delta_to_actions d ↔
      d = .Unreadable ∨ d = .Conflicted) := by
  refine ⟨rfl, rfl, rfl, rfl, rfl, rfl, rfl, rfl, rfl, rfl, rfl, ?_⟩
  intro d
  cases d <;> simp [MainRs.delta_to_actions]

/-- C10: the two copies of the change-kind-to-action mapping — one in
`main.rs` (Strategy B) and one in `create_a_tree_prep.rs` (Strategy A) — are
extensionally equal: for every change kind they return the same actions. -/
theorem c10_delta_to_actions_copies_agree :
    ∀ d : Delta, MainRs.delta_to_actions d = TreePrep.delta_to_actions d := by
  intro d
  cases d <;> rfl

/-- C6: for every blob object read by content id, valid UTF-8 bytes are
classified `Text` carrying exactly those bytes; any byte sequence that is
not valid UTF-8 is classified `Base64` carrying the standard-alphabet,
unwrapped base64 encoding of the bytes, and decoding that base64 string
yields the original bytes. -/
theorem c6_read_file_classification (ps : PathStatus) (obj : GitObject)
    (hk : obj.kind = some .Blob) (hb : ∀ b ∈ obj.content, b < 256) :
    (isValidUtf8 obj.content = true →
      TreePrep.read_file ps obj = .ok (.Text obj.content)) ∧
    (isValidUtf8 obj.content = false →
      TreePrep.read_file ps obj = .ok (.Base64 (base64Encode obj.content)) ∧
      base64Decode (base64Encode obj.content) = some obj.content) := by
  constructor
  · intro hv
    simp [TreePrep.read_file, hk, hv]
  · intro hv
    exact ⟨by simp [TreePrep.read_file, hk, hv], base64_string_round_trip obj.content hb⟩

/-- Witness for C6 at two concrete blobs: the bytes of `"foo"` (valid UTF-8,
classified Text) and the lone byte `0x80` (invalid UTF-8, classified Base64,
round-tripping through its base64 encoding). -/
theorem c6_read_file_classification_witness :
    (TreePrep.read_file ⟨.Added, .Blob, "id1", some .Blob, none, "foo"⟩
        ⟨some .Blob, [102, 111, 111]⟩ = .ok (.Text [102, 111, 111])) ∧
    (TreePrep.read_file ⟨.Added, .Blob, "id2", some .Blob, none, "bin"⟩
        ⟨some .Blob, [128]⟩ = .ok (.Base64 (base64Encode [128])) ∧
      base64Decode (base64Encode [128]) = some [128]) :=
  ⟨(c6_read_file_classification ⟨.Added, .Blob, "id1", some .Blob, none, "foo"⟩
      ⟨some .Blob, [102, 111, 111]⟩ rfl (by decide)).1 (by decide),
   (c6_read_file_classification ⟨.Added, .Blob, "id2", some .Blob, none, "bin"⟩
      ⟨some .Blob, [128]⟩ rfl (by decide)).2 (by decide)⟩

/-- C3: for every repository index that reports unresolved merge conflicts,
`git_status` returns an error before producing any `PathStatus` entries (the
whole run fails; no partial change list exists); for every conflict-free
index it proceeds at stage number 0. -/
theorem c3_git_status_conflicts (index : GitStatusRs.Index) (repo : Repo)
    (deltas : List GitStatusRs.DiffDelta) :
    (index.has_conflicts = true →
      GitStatusRs.git_status index repo deltas =
        .error "Handling conflicts is not supported, and conflicts were detected") ∧
    (index.has_conflicts = false →
      GitStatusRs.stage_number index = .ok 0 ∧
      GitStatusRs.git_status index repo deltas =
        deltas.mapM (GitStatusRs.build_path_status index repo 0)) := by
  constructor
  · intro hc
    simp [GitStatusRs.git_status, GitStatusRs.stage_number, hc, Bind.bind, Except.bind]
  · intro hc
    refine ⟨by simp [GitStatusRs.stage_number, hc], ?_⟩
    simp [GitStatusRs.git_status, GitStatusRs.stage_number, hc, Bind.bind, Except.bind]

/-- Witness for C3: a conflicted index makes `git_status` fail with the
conflict error, and a conflict-free index yields stage number 0. -/
theorem c3_git_status_conflicts_witness :
    GitStatusRs.git_status ⟨true, fun _ _ => none⟩ (fun _ => none) [] =
      .error "Handling conflicts is not supported, and conflicts were detected" ∧
    GitStatusRs.stage_number ⟨false, fun _ _ => none⟩ = .ok 0 :=
  ⟨(c3_git_status_conflicts ⟨true, fun _ _ => none⟩ (fun _ => none) []).1 rfl,
   ((c3_git_status_conflicts ⟨false, fun _ _ => none⟩ (fun _ => none) []).2 rfl).1⟩

/-- C7: the serialized form of every `TreeNode` contains exactly one of the
fields `content` and `sha`: a `Content` variant serializes `content` and
omits `sha`, and a `Sha` variant serializes `sha` — null for `Sha none` —
and omits `content`; both present or both absent is impossible. -/
theorem c7_tree_node_sha_content_exclusive (n : CreateATree.TreeNode) :
    match n.sha_or_content with
    | .Content c =>
        (CreateATree.serializeTreeNode n).lookup "content" = some (.text c) ∧
        (CreateATree.serializeTreeNode n).lookup "sha" = none
    | .Sha (some s) =>
        (CreateATree.serializeTreeNode n).lookup "sha" = some (.str s) ∧
        (CreateATree.serializeTreeNode n).lookup "content" = none
    | .Sha none =>
        (CreateATree.serializeTreeNode n).lookup "sha" = some .null ∧
        (CreateATree.serializeTreeNode n).lookup "content" = none := by
  obtain ⟨p, m, t, soc⟩ := n
  match soc with
  | .Content c => simp [CreateATree.serializeTreeNode, List.lookup]
  | .Sha (some s) => simp [CreateATree.serializeTreeNode, List.lookup]
  | .Sha none => simp [CreateATree.serializeTreeNode, List.lookup]

/-- C8: while the cached token is not within the two-minute expiry margin, a
non-forced call returns the identical cached token value and leaves the
cache unchanged, so repeated non-forced calls keep returning that value; a
forced call always performs the renewal and returns the newly issued token —
distinct from the immediately prior cached value whenever the service issues
a different value, as it does in practice — and a non-forced call whose
cached token is within the margin renews before returning. -/
theorem c8_get_access_token_cache (t : GitHubRs.AccessToken) (now later : Int)
    (renew renew2 : GitHubRs.RenewedToken) :
    (GitHubRs.expires_soon t now = false →
      GitHubRs.get_access_token (some t) now false (.ok renew) =
        .ok (t.token, some t) ∧
      (GitHubRs.expires_soon t later = false →
        GitHubRs.get_access_token (some t) later false (.ok renew2) =
          .ok (t.token, some t))) ∧
    (∀ cached : Option GitHubRs.AccessToken,
      GitHubRs.get_access_token cached now true (.ok renew) =
        .ok (renew.token, some ⟨renew.token, renew.expires_at⟩)) ∧
    (renew.token ≠ t.token →
      ∀ result st,
        GitHubRs.get_access_token (some t) now true (.ok renew) = .ok (result, st) →
        result ≠ t.token) ∧
    (GitHubRs.expires_soon t now = true →
      GitHubRs.get_access_token (some t) now false (.ok renew) =
        .ok (renew.token, some ⟨renew.token, renew.expires_at⟩)) := by
  refine ⟨?_, ?_, ?_, ?_⟩
  · intro h
    refine ⟨by simp [GitHubRs.get_access_token, h], ?_⟩
    intro h2
    simp [GitHubRs.get_access_token, h2]
  · intro cached
    simp [GitHubRs.get_access_token]
  · intro hne result st heq
    simp only [GitHubRs.get_access_token, Bool.true_or, if_true] at heq
    rw [Except.ok.injEq, Prod.mk.injEq] at heq
    intro hc
    exact hne (heq.1.trans hc)
  · intro h
    simp [GitHubRs.get_access_token, h]

/-- Witness for C8 at concrete times and tokens: a fresh cache entry
(expiring at 1000, asked at time 0) is returned unchanged; forcing returns
the newly issued token, which differs from the cached one; a cache entry
within the margin (asked at time 900) is renewed. -/
theorem c8_get_access_token_cache_witness :
    GitHubRs.get_access_token (some ⟨"cached", 1000⟩) 0 false (.ok ⟨"new", 5000⟩) =
      .ok ("cached", some ⟨"cached", 1000⟩) ∧
    GitHubRs.get_access_token (some ⟨"cached", 1000⟩) 0 true (.ok ⟨"new", 5000⟩) =
      .ok ("new", some ⟨"new", 5000⟩) ∧
    ("new" : String) ≠ "cached" ∧
    GitHubRs.get_access_token (some ⟨"cached", 1000⟩) 900 false (.ok ⟨"new", 5000⟩) =
      .ok ("new", some ⟨"new", 5000⟩) :=
  ⟨((c8_get_access_token_cache ⟨"cached", 1000⟩ 0 0 ⟨"new", 5000⟩ ⟨"new", 5000⟩).1
      (by decide)).1,
   (c8_get_access_token_cache ⟨"cached", 1000⟩ 0 0 ⟨"new", 5000⟩ ⟨"new", 5000⟩).2.1
      (some ⟨"cached", 1000⟩),
   (c8_get_access_token_cache ⟨"cached", 1000⟩ 0 0 ⟨"new", 5000⟩ ⟨"new", 5000⟩).2.2.1
      (by decide) "new" (some ⟨"new", 5000⟩)
      ((c8_get_access_token_cache ⟨"cached", 1000⟩ 0 0 ⟨"new", 5000⟩ ⟨"new", 5000⟩).2.1
        (some ⟨"cached", 1000⟩)),
   (c8_get_access_token_cache ⟨"cached", 1000⟩ 900 0 ⟨"new", 5000⟩ ⟨"new", 5000⟩).2.2.2
      (by decide)⟩

theorem dedup_length_eq_iff {α : Type _} [DecidableEq α] (l : List α) :
    l.dedup.length = l.length ↔ l.Nodup := by
  constructor
  · intro h
    have heq : l.dedup = l := (List.dedup_sublist l).eq_of_length h
    rw [← heq]
    exact List.nodup_dedup l
  · intro h
    rw [List.dedup_eq_self.mpr h]

/-- C5: the Strategy B pre-submit check accepts a batch exactly when the two
lists are not both empty, no path repeats within the additions, no path
repeats within the deletions, and no path occurs in both lists; it rejects
(with an error, before any network call — `checks` runs inside
`path_statuses_to_file_changes`, which only afterwards hands the batch to
the client) in precisely the remaining cases. -/
theorem c5_checks_exact (additions : List MainRs.FileAddition)
    (deletions : List MainRs.FileDeletion) :
    MainRs.checks additions deletions = .ok () ↔
      ((additions ≠ [] ∨ deletions ≠ []) ∧
       (additions.map MainRs.FileAddition.path).Nodup ∧
       (deletions.map MainRs.FileDeletion.path).Nodup ∧
       ∀ p ∈ additions.map MainRs.FileAddition.path,
         p ∉ deletions.map MainRs.FileDeletion.path) := by
  simp only [MainRs.checks]
  split_ifs with h1 h2 h3 h4
  · simp only [Bool.and_eq_true, List.isEmpty_iff] at h1
    simp [h1.1, h1.2]
  · apply iff_of_false (by simp)
    rintro ⟨-, hnd, -, -⟩
    exact h2 (((dedup_length_eq_iff _).mpr hnd).trans (List.length_map _ _))
  · apply iff_of_false (by simp)
    rintro ⟨-, -, hnd, -⟩
    exact h3 (((dedup_length_eq_iff _).mpr hnd).trans (List.length_map _ _))
  · refine iff_of_true rfl ⟨?_, ?_, ?_, ?_⟩
    · simp only [Bool.and_eq_true, List.isEmpty_iff] at h1
      tauto
    · have h2' := not_ne_iff.mp h2
      exact (dedup_length_eq_iff _).mp (h2'.trans (List.length_map _ _).symm)
    · have h3' := not_ne_iff.mp h3
      exact (dedup_length_eq_iff _).mp (h3'.trans (List.length_map _ _).symm)
    · rw [List.isEmpty_iff, List.filter_eq_nil_iff] at h4
      intro p hp
      have := h4 p (List.mem_dedup.mpr hp)
      simpa [List.mem_dedup] using this
  · apply iff_of_false (by simp)
    rintro ⟨-, -, -, hdisj⟩
    apply h4
    rw [List.isEmpty_iff, List.filter_eq_nil_iff]
    intro p hp
    simp only [decide_eq_true_eq, List.mem_dedup] at hp ⊢
    exact hdisj p hp

/-- Witness for C5: the empty batch is rejected, and a batch with one
addition is accepted. -/
theorem c5_checks_exact_witness :
    MainRs.checks [] [] ≠ .ok () ∧
    MainRs.checks [⟨"Zm9v", "foo"⟩] [] = .ok () :=
  ⟨fun h => by
    have := (c5_checks_exact [] []).mp h
    simp at this,
   (c5_checks_exact [⟨"Zm9v", "foo"⟩] []).mpr
     ⟨Or.inl (by simp), by simp, by simp, by simp⟩⟩

theorem mem_delete_original_path_iff (d : Delta) :
    GitCommitAction.DeleteOriginalPath ∈ MainRs.delta_to_actions d ↔ d = .Renamed := by
  cases d <;> simp [MainRs.delta_to_actions]

theorem process_path_status_renamed_none_error (repo : Repo) (ps : PathStatus)
    (hd : ps.delta = .Renamed) (hn : ps.original_path = none)
    (acc : List MainRs.FileAddition × List MainRs.FileDeletion) :
    ∃ e, MainRs.process_path_status repo ps acc = .error e := by
  unfold MainRs.process_path_status
  rw [hd]
  cases hread : MainRs.read_as_base64 repo ps.object_id with
  | error e =>
      exact ⟨e, by simp [MainRs.delta_to_actions, MainRs.process_action, hread,
        List.foldlM, Bind.bind, Except.bind]⟩
  | ok contents =>
      exact ⟨"Expected an original path, but none was found for " ++ ps.path,
        by simp [MainRs.delta_to_actions, MainRs.process_action, hread, hn,
          List.foldlM, Bind.bind, Except.bind]⟩

theorem foldlM_path_status_error (repo : Repo) (status : List PathStatus)
    (ps : PathStatus) (hmem : ps ∈ status)
    (herr : ∀ acc, ∃ e, MainRs.process_path_status repo ps acc = .error e) :
    ∀ acc, ∃ e,
      status.foldlM (fun acc p => MainRs.process_path_status repo p acc) acc =
        .error e := by
  induction status with
  | nil => cases hmem
  | cons head tail ih =>
      intro acc
      rw [List.foldlM_cons]
      cases hmem with
      | head =>
          obtain ⟨e, he⟩ := herr acc
          exact ⟨e, by simp [he, Bind.bind, Except.bind]⟩
      | tail _ hmem2 =>
          cases hh : MainRs.process_path_status repo head acc with
          | error e => exact ⟨e, by simp [hh, Bind.bind, Except.bind]⟩
          | ok acc1 =>
              obtain ⟨e, he⟩ := ih hmem2 acc1
              exact ⟨e, by simp [hh, he, Bind.bind, Except.bind]⟩

theorem foldlM_except_error_of_mem {α σ : Type _} (f : σ → α → Except String σ)
    (l : List α) (x : α) (hx : x ∈ l)
    (hf : ∀ s, ∃ e, f s x = .error e) :
    ∀ s, ∃ e, l.foldlM f s = .error e := by
  induction l with
  | nil => cases hx
  | cons head tail ih =>
      intro s
      rw [List.foldlM_cons]
      cases hx with
      | head =>
          obtain ⟨e, he⟩ := hf s
          exact ⟨e, by simp [he, Bind.bind, Except.bind]⟩
      | tail _ hx2 =>
          cases hh : f s head with
          | error e => exact ⟨e, by simp [hh, Bind.bind, Except.bind]⟩
          | ok s1 =>
              obtain ⟨e, he⟩ := ih hx2 s1
              exact ⟨e, by simp [hh, he, Bind.bind, Except.bind]⟩

theorem treeprep_process_delete_original_none
    (create_a_blob : String → Except String String) (ps : PathStatus)
    (git_object : GitObject) (hn : ps.original_path = none)
    (tree : List CreateATree.TreeNode) :
    ∃ e, TreePrep.process_action create_a_blob ps git_object tree
      .DeleteOriginalPath = .error e := by
  cases h2 : TreePrep.git2_node_type_to_github_node_type ps git_object with
  | error e =>
      exact ⟨e, by simp [TreePrep.process_action, h2, Bind.bind, Except.bind]⟩
  | ok nt =>
      exact ⟨"Expected an original path, but none was found for " ++ ps.path,
        by simp [TreePrep.process_action, h2, hn, Bind.bind, Except.bind]⟩

theorem treeprep_actions_renamed_none_error
    (create_a_blob : String → Except String String) (ps : PathStatus)
    (git_object : GitObject) (hn : ps.original_path = none)
    (tree : List CreateATree.TreeNode) :
    ∃ e, (TreePrep.delta_to_actions Delta.Renamed).foldlM
      (TreePrep.process_action create_a_blob ps git_object) tree = .error e := by
  cases h1 : TreePrep.process_action create_a_blob ps git_object tree .AddPath with
  | error e =>
      refine ⟨e, ?_⟩
      simp only [TreePrep.delta_to_actions, List.foldlM]
      rw [h1]
      rfl
  | ok t1 =>
      obtain ⟨e2, he2⟩ :=
        treeprep_process_delete_original_none create_a_blob ps git_object hn t1
      refine ⟨e2, ?_⟩
      simp only [TreePrep.delta_to_actions, List.foldlM]
      rw [h1]
      simp only [Bind.bind, Except.bind]
      rw [he2]

/-- C4: for every `PathStatus` carrying a `DeleteOriginalPath` action (i.e.,
a rename), in both pipelines: if `original_path` is `some p` the emitted
deletion targets exactly `p` (a `FileDeletion` for `p` in Strategy B; a
placeholder `sha = null` tree node at path `p` in Strategy A), and if
`original_path` is `none` the whole run fails with an error — neither
pipeline ever falls back to the current path as the deletion target. -/
theorem c4_delete_original_path (repo : Repo) (status : List PathStatus)
    (ps : PathStatus) (hmem : ps ∈ status)
    (hdel : GitCommitAction.DeleteOriginalPath ∈ MainRs.delta_to_actions ps.delta) :
    (ps.original_path = none →
      ∃ e, MainRs.path_statuses_to_file_changes repo status = .error e) ∧
    (∀ p adds dels adds2 dels2, ps.original_path = some p →
      MainRs.process_path_status repo ps (adds, dels) = .ok (adds2, dels2) →
      dels2 = dels ++ [⟨p⟩]) ∧
    (∀ config create_a_blob, ps.original_path = none →
      ∃ e, TreePrep.generate_request_body config repo status create_a_blob =
        .error e) ∧
    (∀ create_a_blob p git_object tree tree2, ps.original_path = some p →
      TreePrep.process_action create_a_blob ps git_object tree
        .DeleteOriginalPath = .ok tree2 →
      tree2 = tree ++ [⟨p, TreePrep.DELETED_FILE_MODE, TreePrep.DELETED_NODE_TYPE,
        CreateATree.ShaOrContent.Sha none⟩]) := by
  have hren : ps.delta = .Renamed := (mem_delete_original_path_iff ps.delta).mp hdel
  refine ⟨?_, ?_, ?_, ?_⟩
  · intro hn
    obtain ⟨e, he⟩ := foldlM_path_status_error repo status ps hmem
      (process_path_status_renamed_none_error repo ps hren hn) ([], [])
    exact ⟨e, by simp [MainRs.path_statuses_to_file_changes, he, Bind.bind, Except.bind]⟩
  · intro p adds dels adds2 dels2 hp hok
    unfold MainRs.process_path_status at hok
    rw [hren] at hok
    cases hread : MainRs.read_as_base64 repo ps.object_id with
    | error e =>
        simp [MainRs.delta_to_actions, MainRs.process_action, hread, hp,
          List.foldlM, Bind.bind, Except.bind] at hok
    | ok contents =>
        simp [MainRs.delta_to_actions, MainRs.process_action, hread, hp,
          List.foldlM, Bind.bind, Except.bind, Pure.pure, Except.pure] at hok
        exact hok.2.symm
  · intro config create_a_blob hn
    have hstep : ∀ tree : List CreateATree.TreeNode,
        ∃ e, (match repo ps.object_id with
          | none =>
              Except.error ("Unable to find object " ++ ps.object_id ++ " in repo")
          | some git_object =>
              (TreePrep.delta_to_actions ps.delta).foldlM
                (TreePrep.process_action create_a_blob ps git_object) tree) =
          .error e := by
      intro tree
      cases hr : repo ps.object_id with
      | none =>
          exact ⟨"Unable to find object " ++ ps.object_id ++ " in repo", rfl⟩
      | some git_object =>
          rw [hren]
          exact treeprep_actions_renamed_none_error create_a_blob ps git_object hn tree
    obtain ⟨e, he⟩ := foldlM_except_error_of_mem
      (fun tree path_status =>
        match repo path_status.object_id with
        | none =>
            Except.error ("Unable to find object " ++ path_status.object_id ++ " in repo")
        | some git_object =>
            (TreePrep.delta_to_actions path_status.delta).foldlM
              (TreePrep.process_action create_a_blob path_status git_object) tree)
      status ps hmem hstep []
    have hbt : TreePrep.build_tree repo create_a_blob status = .error e := he
    exact ⟨e, by simp [TreePrep.generate_request_body, hbt, Bind.bind, Except.bind]⟩
  · intro create_a_blob p git_object tree tree2 hp hok
    cases hnt : TreePrep.git2_node_type_to_github_node_type ps git_object with
    | error e =>
        simp [TreePrep.process_action, hnt, Bind.bind, Except.bind] at hok
    | ok nt =>
        simp [TreePrep.process_action, hnt, hp, Bind.bind, Except.bind] at hok
        exact hok.symm

/-- Witness for C4: a rename whose `original_path` is absent makes both the
Strategy B translation and the Strategy A request-body assembly fail, and a
rename with `original_path = "old"` emits, in Strategy B, the `FileDeletion`
for exactly `"old"` and, in Strategy A, the placeholder `sha = null` tree
node at exactly `"old"`. -/
theorem c4_delete_original_path_witness :
    (∃ e, MainRs.path_statuses_to_file_changes (fun _ => some ⟨some .Blob, [102]⟩)
        [⟨.Renamed, .Blob, "id", some .Blob, none, "new"⟩] = .error e) ∧
    ([⟨"old"⟩] : List MainRs.FileDeletion) = [] ++ [⟨"old"⟩] ∧
    (∃ e, TreePrep.generate_request_body ⟨"m", "b", "h", false⟩
        (fun _ => some ⟨some .Blob, [102]⟩)
        [⟨.Renamed, .Blob, "id", some .Blob, none, "new"⟩]
        (fun _ => .error "no network") = .error e) ∧
    ([⟨"old", TreePrep.DELETED_FILE_MODE, TreePrep.DELETED_NODE_TYPE,
        CreateATree.ShaOrContent.Sha none⟩] : List CreateATree.TreeNode) =
      [] ++ [⟨"old", TreePrep.DELETED_FILE_MODE, TreePrep.DELETED_NODE_TYPE,
        CreateATree.ShaOrContent.Sha none⟩] :=
  ⟨(c4_delete_original_path (fun _ => some ⟨some .Blob, [102]⟩)
      [⟨.Renamed, .Blob, "id", some .Blob, none, "new"⟩]
      ⟨.Renamed, .Blob, "id", some .Blob, none, "new"⟩
      (List.mem_singleton.mpr rfl) (by decide)).1 rfl,
   (c4_delete_original_path (fun _ => some ⟨some .Blob, [102]⟩)
      [⟨.Renamed, .Blob, "id", some .Blob, some "old", "new"⟩]
      ⟨.Renamed, .Blob, "id", some .Blob, some "old", "new"⟩
      (List.mem_singleton.mpr rfl) (by decide)).2.1
      "old" [] [] [⟨base64Encode [102], "new"⟩] [⟨"old"⟩] rfl (by rfl),
   (c4_delete_original_path (fun _ => some ⟨some .Blob, [102]⟩)
      [⟨.Renamed, .Blob, "id", some .Blob, none, "new"⟩]
      ⟨.Renamed, .Blob, "id", some .Blob, none, "new"⟩
      (List.mem_singleton.mpr rfl) (by decide)).2.2.1
      ⟨"m", "b", "h", false⟩ (fun _ => .error "no network") rfl,
   (c4_delete_original_path (fun _ => some ⟨some .Blob, [102]⟩)
      [⟨.Renamed, .Blob, "id", some .Blob, some "old", "new"⟩]
      ⟨.Renamed, .Blob, "id", some .Blob, some "old", "new"⟩
      (List.mem_singleton.mpr rfl) (by decide)).2.2.2
      (fun _ => .error "no network") "old" ⟨some .Blob, [102]⟩ []
      [⟨"old", TreePrep.DELETED_FILE_MODE, TreePrep.DELETED_NODE_TYPE,
        CreateATree.ShaOrContent.Sha none⟩] rfl (by rfl)⟩

/-- C2 (failing input for the code bug): a change set whose single entry is
a pure deletion — which `git_status` reports with the all-zero object id,
per the repository's own `deleted_file` test — makes `generate_request_body`
fail at the unconditional object lookup that precedes the action match,
instead of succeeding with a `sha = null` placeholder node. (The
`DeleteOriginalPath` half of a rename, whose `object_id` is the existing new
blob, does reach the placeholder branch.) -/
theorem c2_deleted_path_strategy_a_fails (config : Config)
    (create_a_blob : String → Except String String) :
    TreePrep.generate_request_body config (fun _ => none)
      [⟨.Deleted, .Unreadable, "0000000000000000000000000000000000000000", none,
        some "foo", "foo"⟩]
      create_a_blob =
      .error ("Unable to find object " ++
        "0000000000000000000000000000000000000000" ++ " in repo") := by
  rfl

/-- C9 counterexample: with HEAD peeling to the commit with id "1111" whose
tree has id "2222", `gather` records head object id "1111" and the generated
request body's `base_tree` is "1111" — the prior commit's own id — which
differs from the prior commit's tree id "2222". This refutes the claim that
`base_tree` is set to the id of the prior commit's tree. -/
theorem c9_base_tree_counterexample :
    GitConfigRs.gather_branch_and_head ⟨some "main", some ⟨"1111", "2222"⟩⟩ =
      .ok ("main", "1111") ∧
    TreePrep.generate_request_body ⟨"msg", "main", "1111", false⟩ (fun _ => none) []
      (fun _ => .error "unused") = .ok ⟨"1111", []⟩ ∧
    ("1111" : String) ≠ "2222" :=
  ⟨rfl, rfl, by decide⟩

/-- C9 (amended): the Strategy A tree-creation request body sets `base_tree`
to the prior (head) commit's own object id — `config.git_head_object_id`,
taken by `GitConfig::gather` from the commit HEAD peels to — and the
spec-modelled commit-creation request references the newly created tree and
the prior commit as its sole parent. -/
theorem c9_base_tree_and_commit_parent (config : Config) (repo : Repo)
    (status : List PathStatus) (create_a_blob : String → Except String String)
    (body : CreateATree.RequestBody) (new_tree_sha : String)
    (h : TreePrep.generate_request_body config repo status create_a_blob = .ok body) :
    body.base_tree = config.git_head_object_id ∧
    (strategy_a_commit_request config new_tree_sha).tree = new_tree_sha ∧
    (strategy_a_commit_request config new_tree_sha).parents =
      [config.git_head_object_id] := by
  refine ⟨?_, rfl, rfl⟩
  unfold TreePrep.generate_request_body at h
  cases hf : TreePrep.build_tree repo create_a_blob status with
  | error e =>
      rw [hf] at h
      simp [Bind.bind, Except.bind] at h
  | ok t =>
      rw [hf] at h
      simp only [Bind.bind, Except.bind, Except.ok.injEq] at h
      rw [← h]

/-- Witness for C9: at the empty change set with head commit id "1111", the
request body has `base_tree = "1111"` and the commit request references the
new tree "abcd" with sole parent "1111". -/
theorem c9_base_tree_and_commit_parent_witness :
    (CreateATree.RequestBody.mk "1111" []).base_tree = "1111" ∧
    (strategy_a_commit_request ⟨"msg", "main", "1111", false⟩ "abcd").tree = "abcd" ∧
    (strategy_a_commit_request ⟨"msg", "main", "1111", false⟩ "abcd").parents =
      ["1111"] :=
  c9_base_tree_and_commit_parent ⟨"msg", "main", "1111", false⟩ (fun _ => none) []
    (fun _ => .error "unused") ⟨"1111", []⟩ "abcd" rfl
